import Mathlib

/-!
Verification of the LocalFile WebRTC peer-connection manager.

This file shallowly embeds the peer-session state machine of
`src/lib/webrtc.ts` (class `WebRTCManager`), the file-offer waiting logic of
`WebRTCManager.sendFile`, the chunking of `WebRTCManager.sendFileChunks`, and
the receiver-side reassembly of the chat interface's `onFileTransfer`
handler (`src/unnamed/part_001`).

Modelling conventions:
- JavaScript `Map` objects become function maps `Id → Option α`
  (`SMap`); JS string device ids become an abstract `Id` with the total
  order `LinearOrder` standing for the lexicographic string order that
  JS `<` / `>=` applies to the ids.
- `RTCPeerConnection` is abstracted to the fields the manager reads:
  `connectionState`, `signalingState`, presence of `remoteDescription`,
  and the role of this side (whether `createDataChannel` was called, i.e.
  the session was created as initiator).  Description-setting operations
  are modelled with their happy-path WebRTC state transitions: the code
  only reaches them from states in which they succeed (errors are caught
  and abort the single attempt).
- `signalingState` only ranges over stable / have-local-offer /
  have-remote-offer: the manager never keeps a closed connection in its
  table (`close()` is always paired with `delete`), and the pranswer
  states are never entered.
- Asynchronous engine events (ICE candidate emission, connection state
  changes, `ondatachannel`) are not part of these transition functions;
  outbound signals produced synchronously by an operation are returned as
  a list.
- `addIceCandidate` may fail per candidate (caught by `try/catch` in the
  source); an oracle `ok : RTCIceCandidateInit → Bool` decides which
  candidates the engine accepts, and attempted candidates are logged
  together with the oracle's verdict.
-/

namespace LocalFile

/-- Values of `RTCPeerConnection.connectionState` used by the manager. -/
inductive ConnState
  | new
  | connecting
  | connected
  | disconnected
  | failed
  | closed
deriving DecidableEq, Repr

/-- Values of `RTCPeerConnection.signalingState` reachable in the manager's
table (see module comment). -/
inductive SigState
  | stable
  | haveLocalOffer
  | haveRemoteOffer
deriving DecidableEq, Repr

/-- Abstract state of one `RTCPeerConnection` as observed by the manager.
`initiator` records whether this side created the data channel
(`createPeerConnection(peerId, true)`). -/
structure PC where
  connectionState : ConnState
  signalingState : SigState
  hasRemoteDescription : Bool
  initiator : Bool
deriving DecidableEq, Repr

/-- `RTCIceCandidateInit` as serialized by the source (`candidate`, `sdpMid`,
`sdpMLineIndex`); every field can be absent. -/
structure RTCIceCandidateInit where
  candidate : Option String
  sdpMid : Option String
  sdpMLineIndex : Option Nat
deriving DecidableEq, Repr

/-- The kinds of signaling envelope the manager publishes (`sendSignal`). -/
inductive SignalKind
  | offer
  | answer
  | iceCandidate
deriving DecidableEq, Repr

/-- One signal published via `sendSignal(to, type, data)`. -/
structure Sent (Id : Type) where
  dest : Id
  kind : SignalKind
deriving DecidableEq, Repr

/-- An incoming signal as dispatched by `handleSignal` (the SDP payload of
offers/answers is opaque to the state machine). -/
inductive Signal
  | offer
  | answer
  | iceCandidate (c : Option RTCIceCandidateInit)
deriving DecidableEq, Repr

/-- A JS `Map` keyed by peer id. -/
@[reducible] def SMap (Id α : Type) : Type := Id → Option α

/-- `Map.set`. -/
def SMap.set {Id α : Type} [DecidableEq Id] (m : SMap Id α) (k : Id) (v : α) :
    SMap Id α :=
  fun q => if q = k then some v else m q

/-- `Map.delete`. -/
def SMap.erase {Id α : Type} [DecidableEq Id] (m : SMap Id α) (k : Id) :
    SMap Id α :=
  fun q => if q = k then none else m q

@[simp] theorem SMap.set_same {Id α : Type} [DecidableEq Id]
    (m : SMap Id α) (k : Id) (v : α) : SMap.set m k v k = some v := by
  simp [SMap.set]

@[simp] theorem SMap.erase_same {Id α : Type} [DecidableEq Id]
    (m : SMap Id α) (k : Id) : SMap.erase m k k = none := by
  simp [SMap.erase]

theorem SMap.set_other {Id α : Type} [DecidableEq Id]
    (m : SMap Id α) (k q : Id) (v : α) (h : q ≠ k) :
    SMap.set m k v q = m q := by
  simp [SMap.set, h]

/-- The mutable state of a `WebRTCManager` instance (the fields the
peer-session claims are about: `myDeviceId`, `peerConnections`,
`dataChannels`, `iceCandidatesBuffer`). -/
structure Manager (Id : Type) where
  myDeviceId : Id
  peerConnections : SMap Id PC
  dataChannels : Id → Bool
  iceCandidatesBuffer : SMap Id (List RTCIceCandidateInit)

variable {Id : Type}

/-- A freshly constructed `RTCPeerConnection` (state `new` / `stable`, no
remote description). -/
def freshPC (initiator : Bool) : PC :=
  { connectionState := ConnState.new
    signalingState := SigState.stable
    hasRemoteDescription := false
    initiator := initiator }

/-- The "create a brand-new connection" tail of `createPeerConnection`
(webrtc.ts lines 237-271): construct the engine instance, create the data
channel when initiator, store it in the table. -/
def mkFreshConnection [DecidableEq Id] (m : Manager Id) (peerId : Id)
    (initiator : Bool) : Manager Id × PC :=
  let pc := freshPC initiator
  let m1 := { m with peerConnections := SMap.set m.peerConnections peerId pc }
  let m2 :=
    if initiator then
      { m1 with dataChannels := fun q => if q = peerId then true else m1.dataChannels q }
    else m1
  (m2, pc)

/-- `WebRTCManager.createPeerConnection` (webrtc.ts lines 210-272): reuse a
connected/connecting or unused (`new`/`stable`) connection, otherwise close
and replace it. -/
def createPeerConnection [DecidableEq Id] (m : Manager Id) (peerId : Id)
    (initiator : Bool) : Manager Id × PC :=
  match m.peerConnections peerId with
  | some pc =>
    if pc.connectionState = ConnState.connected ∨
        pc.connectionState = ConnState.connecting then
      (m, pc)
    else if pc.connectionState = ConnState.failed ∨
        pc.connectionState = ConnState.disconnected ∨
        pc.connectionState = ConnState.closed then
      mkFreshConnection m peerId initiator
    else if pc.connectionState = ConnState.new ∧
        pc.signalingState = SigState.stable then
      (m, pc)
    else
      mkFreshConnection m peerId initiator
  | none => mkFreshConnection m peerId initiator

/-- Per-candidate loop body of `flushIceCandidates` (webrtc.ts lines
468-475): each buffered candidate is attempted via `addIceCandidate` inside
`try/catch`, so a failure is recorded and iteration continues with the
remaining candidates. -/
def attemptCandidates (ok : RTCIceCandidateInit → Bool) :
    List RTCIceCandidateInit → List (RTCIceCandidateInit × Bool)
  | [] => []
  | c :: rest => (c, ok c) :: attemptCandidates ok rest

/-- `WebRTCManager.flushIceCandidates` (webrtc.ts lines 459-479).  Returns
the updated state and the log of attempted candidates (with the engine's
accept/reject verdict). -/
def flushIceCandidates [DecidableEq Id] (ok : RTCIceCandidateInit → Bool)
    (m : Manager Id) (peerId : Id) :
    Manager Id × List (RTCIceCandidateInit × Bool) :=
  match m.peerConnections peerId with
  | none => (m, [])
  | some _ =>
    match m.iceCandidatesBuffer peerId with
    | none => (m, [])
    | some cs =>
      if cs.length = 0 then (m, [])
      else
        ({ m with iceCandidatesBuffer := SMap.erase m.iceCandidatesBuffer peerId },
          attemptCandidates ok cs)

/-- `WebRTCManager.handleIceCandidate` (webrtc.ts lines 482-505).  The JS
guard `!pc || !candidate || !candidate.candidate` treats an absent candidate
object and an absent or empty (falsy) `candidate` string alike. -/
def handleIceCandidate [DecidableEq Id] (ok : RTCIceCandidateInit → Bool)
    (m : Manager Id) (peerId : Id) (candidate : Option RTCIceCandidateInit) :
    Manager Id × List (RTCIceCandidateInit × Bool) :=
  match m.peerConnections peerId, candidate with
  | none, _ => (m, [])
  | some _, none => (m, [])
  | some pc, some c =>
    if c.candidate = none ∨ c.candidate = some "" then (m, [])
    else if pc.hasRemoteDescription = false then
      let buf :=
        match m.iceCandidatesBuffer peerId with
        | some b => b
        | none => []
      ({ m with iceCandidatesBuffer :=
          SMap.set m.iceCandidatesBuffer peerId (buf ++ [c]) }, [])
    else
      (m, [(c, ok c)])

/-- Negotiation tail of `handleOffer` (webrtc.ts lines 425-437) once the
connection `pc` to use has been chosen: `setRemoteDescription(offer)`
(signaling → have-remote-offer, remote description present), flush buffered
ICE candidates, `createAnswer` + `setLocalDescription(answer)` (signaling →
stable), publish the answer. -/
def answerOffer [DecidableEq Id] (ok : RTCIceCandidateInit → Bool)
    (m : Manager Id) (peerId : Id) (pc : PC) :
    Manager Id × List (Sent Id) :=
  let pc1 := { pc with signalingState := SigState.haveRemoteOffer
                       hasRemoteDescription := true }
  let m1 := { m with peerConnections := SMap.set m.peerConnections peerId pc1 }
  let m2 := (flushIceCandidates ok m1 peerId).1
  let pc2 := { pc1 with signalingState := SigState.stable }
  let m3 := { m2 with peerConnections := SMap.set m2.peerConnections peerId pc2 }
  (m3, [{ dest := peerId, kind := SignalKind.answer }])

/-- `WebRTCManager.handleOffer` (webrtc.ts lines 398-441). -/
def handleOffer [DecidableEq Id] [LT Id] [DecidableRel (α := Id) (· < ·)]
    (ok : RTCIceCandidateInit → Bool) (m : Manager Id) (peerId : Id) :
    Manager Id × List (Sent Id) :=
  match m.peerConnections peerId with
  | none =>
    let (m1, pc) := createPeerConnection m peerId false
    answerOffer ok m1 peerId pc
  | some pc0 =>
    if pc0.signalingState = SigState.stable then
      let (m1, pc) := createPeerConnection m peerId false
      answerOffer ok m1 peerId pc
    else if pc0.signalingState = SigState.haveRemoteOffer then
      (m, [])
    else
      -- glare: we hold a local offer and an offer arrives
      if m.myDeviceId < peerId then
        let (m1, pc) := createPeerConnection m peerId false
        answerOffer ok m1 peerId pc
      else
        (m, [])

/-- `WebRTCManager.handleAnswer` (webrtc.ts lines 444-456):
`setRemoteDescription(answer)` (signaling → stable, remote description
present) followed by a flush of buffered candidates. -/
def handleAnswer [DecidableEq Id] (ok : RTCIceCandidateInit → Bool)
    (m : Manager Id) (peerId : Id) : Manager Id × List (Sent Id) :=
  match m.peerConnections peerId with
  | none => (m, [])
  | some pc =>
    let pc1 := { pc with signalingState := SigState.stable
                         hasRemoteDescription := true }
    let m1 := { m with peerConnections := SMap.set m.peerConnections peerId pc1 }
    ((flushIceCandidates ok m1 peerId).1, [])

/-- `WebRTCManager.handleSignal` (webrtc.ts lines 125-149): dispatch on the
envelope kind, with the offer fast-path ignore for connected/stable
connections, the answer guard on `have-local-offer`, and the
existing-connection guard for ICE candidates. -/
def handleSignal [DecidableEq Id] [LT Id] [DecidableRel (α := Id) (· < ·)]
    (ok : RTCIceCandidateInit → Bool) (m : Manager Id) (fromId : Id)
    (sig : Signal) : Manager Id × List (Sent Id) :=
  match sig, m.peerConnections fromId with
  | Signal.offer, some pc =>
    if pc.connectionState = ConnState.connected ∨
        pc.signalingState = SigState.stable then
      (m, [])
    else
      handleOffer ok m fromId
  | Signal.offer, none => handleOffer ok m fromId
  | Signal.answer, some pc =>
    if pc.signalingState = SigState.haveLocalOffer then
      handleAnswer ok m fromId
    else
      (m, [])
  | Signal.answer, none => (m, [])
  | Signal.iceCandidate c, some _ => ((handleIceCandidate ok m fromId c).1, [])
  | Signal.iceCandidate _, none => (m, [])

/-- Offer-creation tail of `connectToPeer` (webrtc.ts lines 383-391):
create/reuse the connection as initiator, `createOffer` +
`setLocalDescription(offer)` (signaling → have-local-offer), publish the
offer. -/
def publishOffer [DecidableEq Id] (m : Manager Id) (peerId : Id) :
    Manager Id × List (Sent Id) :=
  let (m1, pc) := createPeerConnection m peerId true
  let pc1 := { pc with signalingState := SigState.haveLocalOffer }
  ({ m1 with peerConnections := SMap.set m1.peerConnections peerId pc1 },
    [{ dest := peerId, kind := SignalKind.offer }])

/-- `WebRTCManager.connectToPeer` (webrtc.ts lines 354-395).  The JS guard
`this.myDeviceId >= peerId` is the total order on ids. -/
def connectToPeer [DecidableEq Id] [LE Id] [DecidableRel (α := Id) (· ≤ ·)]
    (m : Manager Id) (peerId : Id) : Manager Id × List (Sent Id) :=
  if peerId ≤ m.myDeviceId then (m, [])
  else
    match m.peerConnections peerId with
    | some pc =>
      if pc.connectionState = ConnState.connected ∨
          pc.connectionState = ConnState.connecting then
        (m, [])
      else if pc.signalingState = SigState.haveRemoteOffer then
        (m, [])
      else if pc.signalingState = SigState.haveLocalOffer then
        (m, [])
      else
        publishOffer m peerId
    | none => publishOffer m peerId

/-- An engine oracle accepting every ICE candidate (used to instantiate the
`addIceCandidate` success oracle at concrete states). -/
def okAll : RTCIceCandidateInit → Bool := fun _ => true

/-- Connection states swept by `cleanupConnections`. -/
def badConnState (c : ConnState) : Bool :=
  c = ConnState.failed ∨ c = ConnState.disconnected ∨ c = ConnState.closed

/-- `WebRTCManager.cleanupConnections` (webrtc.ts lines 152-163): every
entry whose connection state is failed/disconnected/closed is closed and
deleted from `peerConnections` and `dataChannels`; iteration over the map
with per-entry deletion is expressed pointwise. -/
def cleanupConnections [DecidableEq Id] (m : Manager Id) : Manager Id :=
  { m with
    peerConnections := fun p =>
      match m.peerConnections p with
      | some pc => if badConnState pc.connectionState then none else some pc
      | none => none
    dataChannels := fun p =>
      match m.peerConnections p with
      | some pc => if badConnState pc.connectionState then false else m.dataChannels p
      | none => m.dataChannels p }

end LocalFile

namespace LocalFile

variable {Id : Type}

/-- Flushing buffered candidates never changes the connection table. -/
lemma flushIceCandidates_peerConnections [DecidableEq Id]
    (ok : RTCIceCandidateInit → Bool) (m : Manager Id) (p : Id) :
    (flushIceCandidates ok m p).1.peerConnections = m.peerConnections := by
  rcases hpc : m.peerConnections p with _ | pc <;> simp [flushIceCandidates, hpc]
  rcases hb : m.iceCandidatesBuffer p with _ | cs <;> simp [hb]
  split <;> rfl

/-- In glare (`signalingState` have-local-offer) the side whose id is not
less than the sender's ignores the incoming offer (webrtc.ts lines 419-422). -/
lemma handleSignal_glare_ignore [DecidableEq Id] [LinearOrder Id]
    (ok : RTCIceCandidateInit → Bool)
    (m : Manager Id) (p : Id) (pc : PC)
    (hpc : m.peerConnections p = some pc)
    (hsig : pc.signalingState = SigState.haveLocalOffer)
    (hconn : pc.connectionState = ConnState.new)
    (hge : ¬ m.myDeviceId < p) :
    handleSignal ok m p Signal.offer = (m, []) := by
  simp [handleSignal, hpc, hsig, hconn, handleOffer, hge]

/-- In glare the side whose id is less than the sender's replaces its pending
offer by a fresh responder connection and answers (webrtc.ts lines 415-418,
425-437). -/
lemma handleSignal_glare_accept [DecidableEq Id] [LinearOrder Id]
    (ok : RTCIceCandidateInit → Bool)
    (m : Manager Id) (p : Id) (pc : PC)
    (hpc : m.peerConnections p = some pc)
    (hsig : pc.signalingState = SigState.haveLocalOffer)
    (hconn : pc.connectionState = ConnState.new)
    (hlt : m.myDeviceId < p) :
    (handleSignal ok m p Signal.offer).2 = [{ dest := p, kind := SignalKind.answer }] ∧
    (handleSignal ok m p Signal.offer).1.peerConnections p =
      some { connectionState := ConnState.new, signalingState := SigState.stable,
             hasRemoteDescription := true, initiator := false } := by
  simp [handleSignal, hpc, hsig, hconn, handleOffer, hlt, createPeerConnection,
        mkFreshConnection, freshPC, answerOffer]

/-- C1: in glare (each side holds a pending local offer when the other
side's offer arrives), the side whose device id compares greater than the
sender's ignores the incoming offer and keeps its state, while the side
whose id compares less discards its pending offer, recreates the session as
Responder (`initiator = false`, remote description applied, answer set, so
signaling ends stable) and publishes an Answer; whether a side answers is
equivalent to the id comparison alone, so the outcome is independent of
message arrival order, and exactly one side of the pair answers. -/
theorem glare_tiebreak [DecidableEq Id] [LinearOrder Id]
    (ok : RTCIceCandidateInit → Bool) (a b : Id) (hab : a ≠ b)
    (A B : Manager Id) (pcA pcB : PC)
    (hAid : A.myDeviceId = a) (hBid : B.myDeviceId = b)
    (hApc : A.peerConnections b = some pcA)
    (hBpc : B.peerConnections a = some pcB)
    (hAsig : pcA.signalingState = SigState.haveLocalOffer)
    (hBsig : pcB.signalingState = SigState.haveLocalOffer)
    (hAconn : pcA.connectionState = ConnState.new)
    (hBconn : pcB.connectionState = ConnState.new) :
    (b < a → handleSignal ok A b Signal.offer = (A, [])) ∧
    (a < b →
      (handleSignal ok A b Signal.offer).2 = [{ dest := b, kind := SignalKind.answer }] ∧
      (handleSignal ok A b Signal.offer).1.peerConnections b =
        some { connectionState := ConnState.new, signalingState := SigState.stable,
               hasRemoteDescription := true, initiator := false }) ∧
    (a < b → handleSignal ok B a Signal.offer = (B, [])) ∧
    (b < a →
      (handleSignal ok B a Signal.offer).2 = [{ dest := a, kind := SignalKind.answer }] ∧
      (handleSignal ok B a Signal.offer).1.peerConnections a =
        some { connectionState := ConnState.new, signalingState := SigState.stable,
               hasRemoteDescription := true, initiator := false }) ∧
    (((handleSignal ok A b Signal.offer).2 ≠ []) ↔ a < b) ∧
    (((handleSignal ok B a Signal.offer).2 ≠ []) ↔ b < a) := by
  refine ⟨?_, ?_, ?_, ?_, ?_, ?_⟩
  · intro h
    exact handleSignal_glare_ignore ok A b pcA hApc hAsig hAconn
      (by rw [hAid]; exact lt_asymm h)
  · intro h
    exact handleSignal_glare_accept ok A b pcA hApc hAsig hAconn (by rw [hAid]; exact h)
  · intro h
    exact handleSignal_glare_ignore ok B a pcB hBpc hBsig hBconn
      (by rw [hBid]; exact lt_asymm h)
  · intro h
    exact handleSignal_glare_accept ok B a pcB hBpc hBsig hBconn (by rw [hBid]; exact h)
  · constructor
    · intro hne
      rcases lt_or_gt_of_ne hab with h | h
      · exact h
      · exact absurd (congrArg Prod.snd
          (handleSignal_glare_ignore ok A b pcA hApc hAsig hAconn
            (by rw [hAid]; exact lt_asymm h))) hne
    · intro h
      rw [(handleSignal_glare_accept ok A b pcA hApc hAsig hAconn
        (by rw [hAid]; exact h)).1]
      simp
  · constructor
    · intro hne
      rcases lt_or_gt_of_ne hab.symm with h | h
      · exact h
      · exact absurd (congrArg Prod.snd
          (handleSignal_glare_ignore ok B a pcB hBpc hBsig hBconn
            (by rw [hBid]; exact lt_asymm h))) hne
    · intro h
      rw [(handleSignal_glare_accept ok B a pcB hBpc hBsig hBconn
        (by rw [hBid]; exact h)).1]
      simp

/-- A connection holding a pending local offer, as after `connectToPeer`
created an offer and is waiting for the answer. -/
def pcPendingOffer : PC :=
  { connectionState := ConnState.new, signalingState := SigState.haveLocalOffer
    hasRemoteDescription := false, initiator := true }

/-- Device 1 in glare with device 2. -/
def mGlareA : Manager Nat :=
  { myDeviceId := 1
    peerConnections := fun k => if k = 2 then some pcPendingOffer else none
    dataChannels := fun k => decide (k = 2)
    iceCandidatesBuffer := fun _ => none }

/-- Device 2 in glare with device 1. -/
def mGlareB : Manager Nat :=
  { myDeviceId := 2
    peerConnections := fun k => if k = 1 then some pcPendingOffer else none
    dataChannels := fun k => decide (k = 1)
    iceCandidatesBuffer := fun _ => none }

/-- Witness for C1 at ids 1 < 2: the lesser side answers as Responder, the
greater side ignores the offer and keeps its state. -/
theorem glare_tiebreak_witness :
    (handleSignal okAll mGlareA 2 Signal.offer).2 =
      [{ dest := 2, kind := SignalKind.answer }] ∧
    (handleSignal okAll mGlareA 2 Signal.offer).1.peerConnections 2 =
      some { connectionState := ConnState.new, signalingState := SigState.stable,
             hasRemoteDescription := true, initiator := false } ∧
    handleSignal okAll mGlareB 1 Signal.offer = (mGlareB, []) :=
  ⟨((glare_tiebreak okAll 1 2 (by decide) mGlareA mGlareB pcPendingOffer pcPendingOffer
      rfl rfl rfl rfl rfl rfl rfl rfl).2.1 (by decide)).1,
   ((glare_tiebreak okAll 1 2 (by decide) mGlareA mGlareB pcPendingOffer pcPendingOffer
      rfl rfl rfl rfl rfl rfl rfl rfl).2.1 (by decide)).2,
   (glare_tiebreak okAll 1 2 (by decide) mGlareA mGlareB pcPendingOffer pcPendingOffer
      rfl rfl rfl rfl rfl rfl rfl rfl).2.2.1 (by decide)⟩

end LocalFile

namespace LocalFile

variable {Id : Type}

/-- Device 1 has called `connectToPeer(2)` and is waiting for the answer:
the session exists, is neither connected nor connecting, and holds a
pending local offer. -/
def mWaitingOffer : Manager Nat :=
  { myDeviceId := 1
    peerConnections := fun k => if k = 2 then some pcPendingOffer else none
    dataChannels := fun k => decide (k = 2)
    iceCandidatesBuffer := fun _ => none }

/-- Counterexample to C2 as stated: the local id (1) is less than the peer
id (2) and the existing session is neither connected nor connecting, yet
`connectToPeer` is a no-op (webrtc.ts lines 377-380) instead of creating a
session and publishing an Offer as the claim requires.  This state arises
from simply calling `connectToPeer(2)` twice. -/
theorem connectToPeer_claim_counterexample :
    mWaitingOffer.myDeviceId < 2 ∧
    mWaitingOffer.peerConnections 2 = some pcPendingOffer ∧
    pcPendingOffer.connectionState ≠ ConnState.connected ∧
    pcPendingOffer.connectionState ≠ ConnState.connecting ∧
    connectToPeer mWaitingOffer 2 = (mWaitingOffer, []) :=
  ⟨by decide, rfl, by decide, by decide, rfl⟩

/-- C2 amended: `connectToPeer(P)` is a no-op whenever the local id is
greater than or equal to P, or an existing session for P is connected or
connecting, or an existing session for P holds a pending local or remote
offer; when the local id is less than P and no session for P exists at all,
it creates the session as Initiator (data channel created), creates and
sets a local offer, and publishes an Offer signal addressed to P. -/
theorem connectToPeer_amended [DecidableEq Id] [LinearOrder Id]
    (m : Manager Id) (p : Id) :
    (p ≤ m.myDeviceId → connectToPeer m p = (m, [])) ∧
    (∀ pc, m.peerConnections p = some pc →
      (pc.connectionState = ConnState.connected ∨
       pc.connectionState = ConnState.connecting) →
      connectToPeer m p = (m, [])) ∧
    (∀ pc, m.peerConnections p = some pc →
      (pc.signalingState = SigState.haveLocalOffer ∨
       pc.signalingState = SigState.haveRemoteOffer) →
      connectToPeer m p = (m, [])) ∧
    (m.myDeviceId < p → m.peerConnections p = none →
      (connectToPeer m p).2 = [{ dest := p, kind := SignalKind.offer }] ∧
      (connectToPeer m p).1.peerConnections p =
        some { connectionState := ConnState.new
               signalingState := SigState.haveLocalOffer
               hasRemoteDescription := false, initiator := true } ∧
      (connectToPeer m p).1.dataChannels p = true) := by
  refine ⟨?_, ?_, ?_, ?_⟩
  · intro h
    simp [connectToPeer, h]
  · intro pc hpc hconn
    by_cases hle : p ≤ m.myDeviceId
    · simp [connectToPeer, hle]
    · rcases hconn with h | h <;> simp [connectToPeer, hle, hpc, h]
  · intro pc hpc hsig
    by_cases hle : p ≤ m.myDeviceId
    · simp [connectToPeer, hle]
    · rcases hsig with h | h <;> simp [connectToPeer, hle, hpc, h]
  · intro hlt hnone
    have hle : ¬ p ≤ m.myDeviceId := not_le.mpr hlt
    refine ⟨?_, ?_, ?_⟩ <;>
      simp [connectToPeer, hle, hnone, publishOffer, createPeerConnection,
            mkFreshConnection, freshPC]

/-- Witness for the amended C2: concrete no-op on a pending-offer session
and concrete offer creation from the empty table. -/
def mNoSessions : Manager Nat :=
  { myDeviceId := 1
    peerConnections := fun _ => none
    dataChannels := fun _ => false
    iceCandidatesBuffer := fun _ => none }

theorem connectToPeer_amended_witness :
    connectToPeer mWaitingOffer 2 = (mWaitingOffer, []) ∧
    (connectToPeer mNoSessions 2).2 = [{ dest := 2, kind := SignalKind.offer }] ∧
    (connectToPeer mNoSessions 2).1.peerConnections 2 =
      some { connectionState := ConnState.new
             signalingState := SigState.haveLocalOffer
             hasRemoteDescription := false, initiator := true } ∧
    (connectToPeer mNoSessions 2).1.dataChannels 2 = true :=
  ⟨(connectToPeer_amended mWaitingOffer 2).2.2.1 pcPendingOffer rfl (Or.inl rfl),
   ((connectToPeer_amended mNoSessions 2).2.2.2 (by decide) rfl).1,
   ((connectToPeer_amended mNoSessions 2).2.2.2 (by decide) rfl).2.1,
   ((connectToPeer_amended mNoSessions 2).2.2.2 (by decide) rfl).2.2⟩

/-- A session whose engine instance exists but whose negotiation never
started (connection `new`, signaling `stable`): for example one whose
earlier negotiation attempt failed at the description step (the error is
caught, leaving the fresh connection in the table). -/
def pcIdleStable : PC :=
  { connectionState := ConnState.new, signalingState := SigState.stable
    hasRemoteDescription := false, initiator := false }

def mIdleStable : Manager Nat :=
  { myDeviceId := 1
    peerConnections := fun k => if k = 2 then some pcIdleStable else none
    dataChannels := fun _ => false
    iceCandidatesBuffer := fun _ => none }

/-- Counterexample to C3 as stated: the existing session for peer 2 is in
signaling state Stable and is not connected, so by the claim the manager
should recreate it as Responder and publish an Answer; the code instead
ignores the offer entirely (`handleSignal`, webrtc.ts line 134, returns for
any existing connection whose signaling state is stable, negotiated or
not). -/
theorem offer_stable_claim_counterexample :
    mIdleStable.peerConnections 2 = some pcIdleStable ∧
    pcIdleStable.signalingState = SigState.stable ∧
    pcIdleStable.connectionState ≠ ConnState.connected ∧
    handleSignal okAll mIdleStable 2 Signal.offer = (mIdleStable, []) :=
  ⟨rfl, rfl, by decide, rfl⟩

/-- C3 amended: an incoming Offer from P is ignored as an idempotent no-op
whenever an existing session for P is already connected or its signaling
state is Stable (whether or not negotiation completed); only when no
session for P exists does the manager create the session as Responder,
apply the remote description, flush buffered candidates (clearing any
non-empty buffer for P), create and set an answer, and publish an Answer
signal to P. -/
theorem handleOffer_amended [DecidableEq Id] [LinearOrder Id]
    (ok : RTCIceCandidateInit → Bool) (m : Manager Id) (p : Id) :
    (∀ pc, m.peerConnections p = some pc →
      (pc.connectionState = ConnState.connected ∨
       pc.signalingState = SigState.stable) →
      handleSignal ok m p Signal.offer = (m, [])) ∧
    (m.peerConnections p = none →
      (handleSignal ok m p Signal.offer).2 =
        [{ dest := p, kind := SignalKind.answer }] ∧
      (handleSignal ok m p Signal.offer).1.peerConnections p =
        some { connectionState := ConnState.new, signalingState := SigState.stable,
               hasRemoteDescription := true, initiator := false } ∧
      (∀ cs, m.iceCandidatesBuffer p = some cs → cs ≠ [] →
        (handleSignal ok m p Signal.offer).1.iceCandidatesBuffer p = none)) := by
  constructor
  · intro pc hpc hcond
    rcases hcond with h | h <;> simp [handleSignal, hpc, h]
  · intro hnone
    refine ⟨?_, ?_, ?_⟩
    · simp [handleSignal, hnone, handleOffer, createPeerConnection,
            mkFreshConnection, freshPC, answerOffer]
    · simp [handleSignal, hnone, handleOffer, createPeerConnection,
            mkFreshConnection, freshPC, answerOffer]
    · intro cs hcs hne
      simp [handleSignal, hnone, handleOffer, createPeerConnection,
            mkFreshConnection, freshPC, answerOffer, flushIceCandidates,
            hcs, List.length_eq_zero, hne, SMap.erase]

/-- Witness for the amended C3: a connected session ignores a duplicate
offer, and an unknown peer's offer is answered as Responder with the
buffered candidate flushed. -/
def pcLive : PC :=
  { connectionState := ConnState.connected, signalingState := SigState.stable
    hasRemoteDescription := true, initiator := true }

def candA : RTCIceCandidateInit :=
  { candidate := some "candidate:1 1 UDP 2122252543 192.0.2.1 3456 typ host"
    sdpMid := some "0", sdpMLineIndex := some 0 }

def mOfferScene : Manager Nat :=
  { myDeviceId := 5
    peerConnections := fun k => if k = 2 then some pcLive else none
    dataChannels := fun k => decide (k = 2)
    iceCandidatesBuffer := fun k => if k = 3 then some [candA] else none }

theorem handleOffer_amended_witness :
    handleSignal okAll mOfferScene 2 Signal.offer = (mOfferScene, []) ∧
    (handleSignal okAll mOfferScene 3 Signal.offer).2 =
      [{ dest := 3, kind := SignalKind.answer }] ∧
    (handleSignal okAll mOfferScene 3 Signal.offer).1.peerConnections 3 =
      some { connectionState := ConnState.new, signalingState := SigState.stable,
             hasRemoteDescription := true, initiator := false } ∧
    (handleSignal okAll mOfferScene 3 Signal.offer).1.iceCandidatesBuffer 3 = none :=
  ⟨(handleOffer_amended okAll mOfferScene 2).1 pcLive rfl (Or.inl rfl),
   ((handleOffer_amended okAll mOfferScene 3).2 rfl).1,
   ((handleOffer_amended okAll mOfferScene 3).2 rfl).2.1,
   ((handleOffer_amended okAll mOfferScene 3).2 rfl).2.2 [candA] rfl (by decide)⟩

end LocalFile

namespace LocalFile

variable {Id : Type}

/-- The flush loop attempts every candidate of the list exactly once, in
list order, whatever the engine's per-candidate verdict. -/
lemma attemptCandidates_map_fst (ok : RTCIceCandidateInit → Bool)
    (cs : List RTCIceCandidateInit) :
    (attemptCandidates ok cs).map Prod.fst = cs := by
  induction cs with
  | nil => rfl
  | cons c rest ih => simp [attemptCandidates, ih]

/-- C4: flushing after a remote description is applied attempts each
buffered candidate exactly once, in buffering order — the attempted list
equals the buffer for every accept/reject oracle `ok`, so one candidate's
failure never prevents the remaining attempts — and afterwards the
non-empty buffer is deleted, so no candidate can be re-applied from it. -/
theorem flushIceCandidates_spec [DecidableEq Id]
    (ok : RTCIceCandidateInit → Bool) (m : Manager Id) (p : Id)
    (cs : List RTCIceCandidateInit)
    (hpc : (m.peerConnections p).isSome)
    (hbuf : m.iceCandidatesBuffer p = some cs) :
    ((flushIceCandidates ok m p).2.map Prod.fst = cs) ∧
    (cs ≠ [] → (flushIceCandidates ok m p).1.iceCandidatesBuffer p = none) ∧
    (cs = [] → flushIceCandidates ok m p = (m, [])) := by
  obtain ⟨pc, hpc2⟩ := Option.isSome_iff_exists.mp hpc
  refine ⟨?_, ?_, ?_⟩
  · rcases hcs : cs with _ | ⟨c, rest⟩ <;>
      simp [flushIceCandidates, hpc2, hbuf, hcs, attemptCandidates_map_fst]
  · intro hne
    simp [flushIceCandidates, hpc2, hbuf, List.length_eq_zero, hne, SMap.erase]
  · intro hnil
    simp [flushIceCandidates, hpc2, hbuf, hnil]

def candB : RTCIceCandidateInit :=
  { candidate := some "candidate:2 1 UDP 1686052607 198.51.100.7 3478 typ srflx"
    sdpMid := some "0", sdpMLineIndex := some 0 }

/-- An oracle that rejects `candA` (the engine throwing in
`addIceCandidate` for that candidate) and accepts everything else. -/
def okRejectA : RTCIceCandidateInit → Bool := fun c => !(c == candA)

def mBuffered : Manager Nat :=
  { myDeviceId := 1
    peerConnections := fun k =>
      if k = 2 then
        some { connectionState := ConnState.new
               signalingState := SigState.haveRemoteOffer
               hasRemoteDescription := true, initiator := false }
      else none
    dataChannels := fun _ => false
    iceCandidatesBuffer := fun k => if k = 2 then some [candA, candB] else none }

/-- Witness for C4: with two buffered candidates of which the engine
rejects the first, both are still attempted in order and the buffer is
cleared. -/
theorem flushIceCandidates_spec_witness :
    ((flushIceCandidates okRejectA mBuffered 2).2.map Prod.fst = [candA, candB]) ∧
    (flushIceCandidates okRejectA mBuffered 2).1.iceCandidatesBuffer 2 = none :=
  ⟨(flushIceCandidates_spec okRejectA mBuffered 2 [candA, candB]
      (by decide) rfl).1,
   (flushIceCandidates_spec okRejectA mBuffered 2 [candA, candB]
      (by decide) rfl).2.1 (by decide)⟩

/-- C5: an incoming Answer envelope from P is applied as the remote
description — the session moves to signaling stable with a remote
description present, and a non-empty candidate buffer for P is flushed
(cleared) — exactly when a session for P exists in signaling state
have-local-offer; with no session, or a session in any other signaling
state, the envelope has no effect and nothing is sent. -/
theorem answer_applied_iff [DecidableEq Id] [LinearOrder Id]
    (ok : RTCIceCandidateInit → Bool) (m : Manager Id) (p : Id) :
    (∀ pc, m.peerConnections p = some pc →
      pc.signalingState = SigState.haveLocalOffer →
      (handleSignal ok m p Signal.answer).1.peerConnections p =
        some { connectionState := pc.connectionState
               signalingState := SigState.stable
               hasRemoteDescription := true, initiator := pc.initiator } ∧
      (handleSignal ok m p Signal.answer).2 = [] ∧
      (∀ cs, m.iceCandidatesBuffer p = some cs → cs ≠ [] →
        (handleSignal ok m p Signal.answer).1.iceCandidatesBuffer p = none)) ∧
    (m.peerConnections p = none → handleSignal ok m p Signal.answer = (m, [])) ∧
    (∀ pc, m.peerConnections p = some pc →
      pc.signalingState ≠ SigState.haveLocalOffer →
      handleSignal ok m p Signal.answer = (m, [])) := by
  refine ⟨?_, ?_, ?_⟩
  · intro pc hpc hsig
    have hdis : handleSignal ok m p Signal.answer = handleAnswer ok m p := by
      simp [handleSignal, hpc, hsig]
    rw [hdis]
    refine ⟨?_, ?_, ?_⟩
    · simp only [handleAnswer, hpc]
      rw [flushIceCandidates_peerConnections]
      simp
    · simp only [handleAnswer, hpc]
    · intro cs hcs hne
      simp only [handleAnswer, hpc]
      simp [flushIceCandidates, SMap.set, hcs, List.length_eq_zero, hne,
            SMap.erase]
  · intro hnone
    simp [handleSignal, hnone]
  · intro pc hpc hsig
    simp [handleSignal, hpc, hsig]

/-- Witness for C5: the answer is applied on a have-local-offer session and
ignored on a stable/connected one and on an unknown peer. -/
theorem answer_applied_iff_witness :
    (handleSignal okAll mWaitingOffer 2 Signal.answer).1.peerConnections 2 =
      some { connectionState := ConnState.new, signalingState := SigState.stable
             hasRemoteDescription := true, initiator := true } ∧
    (handleSignal okAll mWaitingOffer 2 Signal.answer).2 = [] ∧
    handleSignal okAll mOfferScene 2 Signal.answer = (mOfferScene, []) ∧
    handleSignal okAll mWaitingOffer 7 Signal.answer = (mWaitingOffer, []) :=
  ⟨((answer_applied_iff okAll mWaitingOffer 2).1 pcPendingOffer rfl rfl).1,
   ((answer_applied_iff okAll mWaitingOffer 2).1 pcPendingOffer rfl rfl).2.1,
   (answer_applied_iff okAll mOfferScene 2).2.2 pcLive rfl (by decide),
   (answer_applied_iff okAll mWaitingOffer 7).2.1 rfl⟩

/-- C7: the periodic cleanup removes exactly the sessions whose connection
state is failed, disconnected or closed — deleting their `peerConnections`
and `dataChannels` entries — and leaves every connected or connecting
session, its data-channel entry, the candidate buffers and the device id
untouched. -/
theorem cleanupConnections_spec [DecidableEq Id] (m : Manager Id) (p : Id) :
    (∀ pc, m.peerConnections p = some pc →
      badConnState pc.connectionState = true →
      (cleanupConnections m).peerConnections p = none ∧
      (cleanupConnections m).dataChannels p = false) ∧
    (∀ pc, m.peerConnections p = some pc →
      (pc.connectionState = ConnState.connected ∨
       pc.connectionState = ConnState.connecting) →
      (cleanupConnections m).peerConnections p = some pc ∧
      (cleanupConnections m).dataChannels p = m.dataChannels p) ∧
    ((cleanupConnections m).peerConnections p = none →
      m.peerConnections p = none ∨
      ∃ pc, m.peerConnections p = some pc ∧
        badConnState pc.connectionState = true) ∧
    (cleanupConnections m).iceCandidatesBuffer = m.iceCandidatesBuffer ∧
    (cleanupConnections m).myDeviceId = m.myDeviceId := by
  refine ⟨?_, ?_, ?_, rfl, rfl⟩
  · intro pc hpc hbad
    simp [cleanupConnections, hpc, hbad]
  · intro pc hpc hlive
    have hnotbad : badConnState pc.connectionState = false := by
      rcases hlive with h | h <;> simp [badConnState, h]
    simp [cleanupConnections, hpc, hnotbad]
  · intro hnone
    rcases hpc : m.peerConnections p with _ | pc
    · exact Or.inl rfl
    · refine Or.inr ⟨pc, rfl, ?_⟩
      by_contra hbad
      rw [Bool.not_eq_true] at hbad
      simp [cleanupConnections, hpc, hbad] at hnone

/-- A session table with one session in every connection state. -/
def mMixed : Manager Nat :=
  { myDeviceId := 9
    peerConnections := fun k =>
      if k = 1 then some { pcLive with connectionState := ConnState.connected }
      else if k = 2 then some { pcLive with connectionState := ConnState.connecting }
      else if k = 3 then some { pcLive with connectionState := ConnState.failed }
      else if k = 4 then some { pcLive with connectionState := ConnState.disconnected }
      else if k = 5 then some { pcLive with connectionState := ConnState.closed }
      else none
    dataChannels := fun k => decide (k ≤ 5)
    iceCandidatesBuffer := fun _ => none }

/-- Witness for C7: the failed session is removed from both tables, the
connected one survives untouched. -/
theorem cleanupConnections_spec_witness :
    ((cleanupConnections mMixed).peerConnections 3 = none ∧
     (cleanupConnections mMixed).dataChannels 3 = false) ∧
    ((cleanupConnections mMixed).peerConnections 1 =
       some { pcLive with connectionState := ConnState.connected } ∧
     (cleanupConnections mMixed).dataChannels 1 = mMixed.dataChannels 1) :=
  ⟨(cleanupConnections_spec mMixed 3).1
      { pcLive with connectionState := ConnState.failed } rfl (by decide),
   (cleanupConnections_spec mMixed 1).2.1
      { pcLive with connectionState := ConnState.connected } rfl (Or.inl rfl)⟩

/-- C10: an ICE-candidate signal whose candidate object is absent, or whose
`candidate` string field is missing or empty (the JS falsy check
`!candidate.candidate`, e.g. an end-of-candidates marker), leaves the
manager state unchanged: nothing is buffered and nothing is passed to
`addIceCandidate`. -/
theorem handleIceCandidate_empty_noop [DecidableEq Id]
    (ok : RTCIceCandidateInit → Bool) (m : Manager Id) (p : Id)
    (c : Option RTCIceCandidateInit)
    (h : c = none ∨ ∃ ci, c = some ci ∧
      (ci.candidate = none ∨ ci.candidate = some "")) :
    handleIceCandidate ok m p c = (m, []) := by
  rcases h with rfl | ⟨ci, rfl, hc⟩
  · rcases hpc : m.peerConnections p with _ | pc <;>
      simp [handleIceCandidate, hpc]
  · rcases hpc : m.peerConnections p with _ | pc <;>
      rcases hc with hc | hc <;>
      simp [handleIceCandidate, hpc, hc]

/-- Witness for C10: an end-of-candidates marker (empty candidate string)
and an absent candidate object are both no-ops, even with a session whose
remote description is unset. -/
def candEnd : RTCIceCandidateInit :=
  { candidate := some "", sdpMid := some "0", sdpMLineIndex := some 0 }

theorem handleIceCandidate_empty_noop_witness :
    handleIceCandidate okAll mWaitingOffer 2 (some candEnd) = (mWaitingOffer, []) ∧
    handleIceCandidate okAll mWaitingOffer 2 none = (mWaitingOffer, []) :=
  ⟨handleIceCandidate_empty_noop okAll mWaitingOffer 2 (some candEnd)
      (Or.inr ⟨candEnd, rfl, Or.inr rfl⟩),
   handleIceCandidate_empty_noop okAll mWaitingOffer 2 none (Or.inl rfl)⟩

end LocalFile

namespace LocalFile

variable {Id : Type}

/-!
### File-offer waiting (`WebRTCManager.sendFile`, webrtc.ts lines 548-610)

`sendFile` publishes the metadata, swaps in a temporary
`onFileTransferCallback` that watches for a `file-accepted`/`file-declined`
control message matching the peer and the `transferId`, and arms a 30 s
timeout.  The matching response restores the original callback and settles
the promise (`true`/the chunk-send result on accept, `false` on decline);
the timeout unconditionally restores the callback and calls
`resolve(false)`, which is a no-op if the promise is already settled.  The
model processes the file-transfer callback invocations that occur before
the timeout fires (`pre`), then the timeout, then the invocations after it
(`post`); completion of the accepted chunk send is modelled as immediate
(`chunkOk` is its result).
-/

/-- The `type` tags of `FileTransferData` messages reaching
`onFileTransferCallback`. -/
inductive FTKind
  | accepted
  | declined
  | metadata
  | chunk
  | complete
  | fileData
deriving DecidableEq, Repr

/-- One invocation of the file-transfer callback: origin peer, message
kind, and the `transferId` carried by the message (absent for raw data). -/
structure FTEvent (Id : Type) where
  fromPeer : Id
  kind : FTKind
  transferId : Option String
deriving DecidableEq, Repr

/-- The observable state of one `sendFile` call: whether the temporary
callback is still installed, the promise's settled value, and how many
`resolve` calls actually settled it. -/
structure SendWait where
  tempInstalled : Bool
  result : Option Bool
  resolveCalls : Nat
deriving DecidableEq, Repr

/-- JS promise `resolve(v)`: settles the promise the first time, later
calls have no effect. -/
def resolveWith (w : SendWait) (v : Bool) : SendWait :=
  match w.result with
  | none => { w with result := some v, resolveCalls := w.resolveCalls + 1 }
  | some _ => w

/-- State at the start of `sendFile` (temporary callback installed,
promise pending). -/
def sendFileInit : SendWait :=
  { tempInstalled := true, result := none, resolveCalls := 0 }

/-- Effect of one file-transfer callback invocation on the waiter
(webrtc.ts lines 573-595): while the temporary callback is installed, a
matching `file-accepted` restores the original callback and resolves with
the chunk-send result, a matching `file-declined` restores it and resolves
`false`, anything else is forwarded without touching the waiter; once the
original callback is restored the waiter can no longer change. -/
def sendFileStep [DecidableEq Id] (peerId : Id) (transferId : String)
    (chunkOk : Bool) (w : SendWait) (e : FTEvent Id) : SendWait :=
  if w.tempInstalled then
    if e.fromPeer = peerId ∧ e.kind = FTKind.accepted ∧
        e.transferId = some transferId then
      resolveWith { w with tempInstalled := false } chunkOk
    else if e.fromPeer = peerId ∧ e.kind = FTKind.declined ∧
        e.transferId = some transferId then
      resolveWith { w with tempInstalled := false } false
    else w
  else w

/-- The 30 s timeout handler (webrtc.ts lines 598-603): restore the
original callback and `resolve(false)`. -/
def sendFileTimeout (w : SendWait) : SendWait :=
  resolveWith { w with tempInstalled := false } false

/-- A whole `sendFile` wait: the callback invocations arriving within the
30 s window (`pre`, in arrival order), then the timeout, then the
invocations arriving after it (`post`). -/
def sendFileRun [DecidableEq Id] (peerId : Id) (transferId : String)
    (chunkOk : Bool) (pre post : List (FTEvent Id)) : SendWait :=
  ((pre.foldl (sendFileStep peerId transferId chunkOk) sendFileInit)
    |> sendFileTimeout
    |> post.foldl (sendFileStep peerId transferId chunkOk))

/-- An event matching the outbound transfer: an accepted/declined response
from the target peer carrying the transfer's id. -/
def matchingResponse [DecidableEq Id] (peerId : Id) (transferId : String)
    (e : FTEvent Id) : Prop :=
  e.fromPeer = peerId ∧ (e.kind = FTKind.accepted ∨ e.kind = FTKind.declined) ∧
    e.transferId = some transferId

instance [DecidableEq Id] (peerId : Id) (transferId : String)
    (e : FTEvent Id) : Decidable (matchingResponse peerId transferId e) := by
  unfold matchingResponse
  infer_instance

/-- Events cannot touch the waiter once the temporary callback has been
restored. -/
lemma sendFileStep_frozen [DecidableEq Id] (peerId : Id) (transferId : String)
    (chunkOk : Bool) (w : SendWait) (h : w.tempInstalled = false)
    (es : List (FTEvent Id)) :
    es.foldl (sendFileStep peerId transferId chunkOk) w = w := by
  induction es with
  | nil => rfl
  | cons e rest ih => simpa [sendFileStep, h] using ih

/-- Non-matching events leave the waiter unchanged. -/
lemma sendFileStep_no_match [DecidableEq Id] (peerId : Id) (transferId : String)
    (chunkOk : Bool) (es : List (FTEvent Id)) (w : SendWait)
    (h : ∀ e ∈ es, ¬ matchingResponse peerId transferId e) :
    es.foldl (sendFileStep peerId transferId chunkOk) w = w := by
  induction es generalizing w with
  | nil => rfl
  | cons e rest ih =>
    have he := h e (List.mem_cons_self e rest)
    have hstep : sendFileStep peerId transferId chunkOk w e = w := by
      unfold sendFileStep
      unfold matchingResponse at he
      by_cases hw : w.tempInstalled
      · rw [if_pos hw, if_neg, if_neg]
        · intro ⟨h1, h2, h3⟩; exact he ⟨h1, Or.inr h2, h3⟩
        · intro ⟨h1, h2, h3⟩; exact he ⟨h1, Or.inl h2, h3⟩
      · rw [if_neg hw]
    rw [List.foldl_cons, hstep]
    exact ih w (fun e' he' => h e' (List.mem_cons_of_mem e he'))

/-- C6: if no accepted/declined response matching the transfer id arrives
from the peer within the 30 s window, `sendFile` resolves as failed
(`false`) by exactly one effective `resolve` call, and every
accepted/declined message arriving after this resolution — `post` is
arbitrary — has no effect on the settled result. -/
theorem sendFile_timeout_once [DecidableEq Id] (peerId : Id)
    (transferId : String) (chunkOk : Bool) (pre post : List (FTEvent Id))
    (h : ∀ e ∈ pre, ¬ matchingResponse peerId transferId e) :
    sendFileRun peerId transferId chunkOk pre post =
      { tempInstalled := false, result := some false, resolveCalls := 1 } := by
  unfold sendFileRun
  rw [sendFileStep_no_match peerId transferId chunkOk pre sendFileInit h]
  have htimeout : sendFileTimeout sendFileInit =
      { tempInstalled := false, result := some false, resolveCalls := 1 } := rfl
  simp only [Function.comp, htimeout]
  exact sendFileStep_frozen peerId transferId chunkOk _ rfl post

/-- Witness for C6: within the window only a chat peer's unrelated events
and a response for a different transfer id arrive; after the timeout a
matching accepted response arrives and changes nothing. -/
theorem sendFile_timeout_once_witness :
    sendFileRun 2 "1-1700000000000-abc123xyz" true
      [{ fromPeer := 2, kind := FTKind.metadata,
         transferId := some "1-1700000000000-abc123xyz" },
       { fromPeer := 2, kind := FTKind.accepted, transferId := some "other" },
       { fromPeer := 3, kind := FTKind.accepted,
         transferId := some "1-1700000000000-abc123xyz" }]
      [{ fromPeer := 2, kind := FTKind.accepted,
         transferId := some "1-1700000000000-abc123xyz" },
       { fromPeer := 2, kind := FTKind.declined,
         transferId := some "1-1700000000000-abc123xyz" }] =
      { tempInstalled := false, result := some false, resolveCalls := 1 } :=
  sendFile_timeout_once 2 "1-1700000000000-abc123xyz" true _ _ (by decide)

end LocalFile

namespace LocalFile

/-!
### Chunked file transfer (`WebRTCManager.sendFileChunks`, webrtc.ts lines
613-642, and the receiver side in `src/unnamed/part_001`)

The sender reads the file bytes, fixes `chunkSize = 16384`, computes
`totalChunks = Math.ceil(length / chunkSize)` and sends, for each
`i < totalChunks`, the slice from `i * chunkSize` to
`min(i * chunkSize + chunkSize, length)` as one binary frame.  The receiver
(`acceptFileOffer`) computes the same `totalChunks` from the announced size,
counts incoming `file-data` frames, reports completion when
`receivedChunks >= totalChunks`, and reconstructs the file by concatenating
the received frames at consecutive offsets in receipt order.  Bytes are
modelled as `Nat`.
-/

/-- The fixed chunk size (16 KiB) used by both ends. -/
def chunkSize : Nat := 16384

/-- `Math.ceil(len / chunkSize)` on natural numbers. -/
def totalChunksFor (len : Nat) : Nat := (len + chunkSize - 1) / chunkSize

/-- `WebRTCManager.sendFileChunks`: the sequence of binary frames sent,
`uint8Array.slice(i * chunkSize, min(i * chunkSize + chunkSize, length))`
for `i = 0 .. totalChunks - 1`. -/
def sendFileChunks (data : List Nat) : List (List Nat) :=
  (List.range (totalChunksFor data.length)).map
    (fun i => (data.drop (i * chunkSize)).take chunkSize)

/-- `acceptFileOffer` (part_001 lines 283-284): the receiver's
`totalChunks`, recomputed from the announced file size with the same chunk
size. -/
def receiverTotalChunks (fileSize : Nat) : Nat := (fileSize + chunkSize - 1) / chunkSize

/-- The receiver's completion test (part_001 line 168):
`receivedChunks >= totalChunks` after `frames` received `file-data`
frames. -/
def receiverComplete (fileSize frames : Nat) : Bool :=
  decide (receiverTotalChunks fileSize ≤ frames)

/-- Receiver-side reconstruction (part_001 lines 170-177): the received
frames are copied at consecutive offsets in receipt order, i.e.
concatenated. -/
def reassemble (chunks : List (List Nat)) : List Nat := chunks.flatten

/-- C8: sender and receiver agree on `totalChunks = ceil(size / 16384)`;
a 40000-byte input is sent as exactly 3 frames of sizes 16384, 16384 and
7232, and the receiver reports completion exactly at the third received
frame, not before. -/
theorem chunkCount_40000 (data : List Nat) (h : data.length = 40000) :
    (∀ s : Nat, totalChunksFor s = receiverTotalChunks s) ∧
    totalChunksFor 40000 = 3 ∧
    (sendFileChunks data).length = 3 ∧
    (sendFileChunks data).map List.length = [16384, 16384, 7232] ∧
    (∀ n : Nat, n < 3 → receiverComplete 40000 n = false) ∧
    receiverComplete 40000 3 = true := by
  have h3 : totalChunksFor 40000 = 3 := by decide
  have hr : List.range 3 = [0, 1, 2] := rfl
  refine ⟨fun _ => rfl, h3, ?_, ?_, ?_, by decide⟩
  · simp [sendFileChunks, h, h3]
  · simp only [sendFileChunks, h, h3, hr, List.map_cons, List.map_nil,
      List.length_take, List.length_drop, h]
    norm_num [chunkSize]
  · intro n hn
    simp only [receiverComplete, receiverTotalChunks, chunkSize]
    norm_num
    omega

/-- Witness for C8 on a concrete 40000-byte input. -/
theorem chunkCount_40000_witness :
    (List.replicate 40000 0).length = 40000 ∧
    ((sendFileChunks (List.replicate 40000 0)).length = 3 ∧
     (sendFileChunks (List.replicate 40000 0)).map List.length =
       [16384, 16384, 7232] ∧
     receiverComplete 40000 3 = true) :=
  ⟨List.length_replicate 40000 0,
   ⟨(chunkCount_40000 (List.replicate 40000 0) (List.length_replicate 40000 0)).2.2.1,
    (chunkCount_40000 (List.replicate 40000 0) (List.length_replicate 40000 0)).2.2.2.1,
    (chunkCount_40000 (List.replicate 40000 0) (List.length_replicate 40000 0)).2.2.2.2.2⟩⟩

/-- Concatenating, in order, the chunk frames produced for `l` restores
`l`, provided the frame count is the one both ends compute from the
length. -/
lemma join_chunks_aux :
    ∀ (n : Nat) (l : List Nat), n = totalChunksFor l.length →
      ((List.range n).map (fun i => (l.drop (i * chunkSize)).take chunkSize)).flatten = l := by
  intro n
  induction n with
  | zero =>
    intro l h
    have hl : l.length = 0 := by
      unfold totalChunksFor chunkSize at h
      omega
    rw [List.length_eq_zero.mp hl]
    rfl
  | succ n ih =>
    intro l h
    have hlen : 1 ≤ l.length := by
      by_contra hcon
      unfold totalChunksFor chunkSize at h
      omega
    have hdrop : n = totalChunksFor (l.drop chunkSize).length := by
      rw [List.length_drop]
      unfold totalChunksFor chunkSize at h ⊢
      omega
    rw [List.range_succ_eq_map, List.map_cons, List.flatten_cons, Nat.zero_mul,
      List.drop_zero, List.map_map]
    have hshift :
        ((List.range n).map ((fun i => (l.drop (i * chunkSize)).take chunkSize) ∘ Nat.succ)) =
        ((List.range n).map (fun i => ((l.drop chunkSize).drop (i * chunkSize)).take chunkSize)) := by
      refine List.map_congr_left ?_
      intro i _
      simp only [Function.comp]
      rw [List.drop_drop, Nat.succ_mul, Nat.add_comm]
    rw [hshift, ih (l.drop chunkSize) hdrop, List.take_append_drop]

/-- C9: for every input byte sequence — of any length, including lengths
not divisible by the chunk size — sending it with `sendFileChunks` and
concatenating the received frames in receipt order reconstructs the input
exactly. -/
theorem chunk_roundtrip (data : List Nat) :
    reassemble (sendFileChunks data) = data :=
  join_chunks_aux (totalChunksFor data.length) data rfl

end LocalFile
